import Mathlib

/-!
Shallow embedding of the wallet-monitoring core of the telegram_id_bot
repository, together with theorems settling the frozen claims.

Sources embedded:
- src/bot/services/crypto_service.py : balance and transaction fetchers,
  per-chain transaction formatters, `check_wallet_transactions`,
  `monitor_all_wallets` (one cycle of its while-loop body).
- src/bot/handlers/crypto.py : wallet-store mutations of
  `wallet_address_entered` and `delete_wallet_confirm`.

Modelling conventions (each noted again at the definition it concerns):
- `await`/HTTP is modelled by passing the external world's response as an
  explicit `HttpResult` value; a raised exception during the request or
  body decoding is the `raise` constructor.
- Python dicts keyed by strings are modelled as association lists
  (the persisted wallet store) or as functions `String → Option String`
  (the in-memory `last_transactions` cache).
- Python's unbounded nonnegative JSON integers (amounts, timestamps) are
  `Nat`; chat ids are `Int`.
- Float division + f-string fixed-point formatting is modelled by exact
  decimal rounding over `Nat` (see `formatFixed`).
-/

namespace CryptoBot

/-- Left-pads a digit string with zeros to the requested width
(helper for fixed-point formatting). -/
def padZeros (width : Nat) (s : String) : String :=
  String.mk (List.replicate (width - s.length) '0') ++ s

/-- Models the Python pattern `f"{value / 10^divPow:.{prec}f}"` used by all
formatters: the raw integer `value` is divided by `10^divPow` and printed
with `prec` digits after the decimal point.  Python computes this through
binary floating point with round-half-even; here it is modelled as exact
decimal rounding (round-half-up on ties).  The two agree on every value
whose division and rounding are exact in double precision, which covers
all concrete values appearing in the claims.  Requires `prec ≤ divPow`
(true of all four call sites: TON 4/9, BTC 8/8, ETH 6/18, USDT 2/6). -/
def formatFixed (value divPow prec : Nat) : String :=
  let d := 10 ^ (divPow - prec)
  let scaled := (2 * value + d) / (2 * d)
  toString (scaled / 10 ^ prec) ++ "." ++ padZeros prec (toString (scaled % 10 ^ prec))

/-- Models the address-truncation pattern `s[:8] + "..." + s[-8:]`. -/
def truncAddr (s : String) : String :=
  s.take 8 ++ "..." ++ s.takeRight 8

/-- Models Python's `str.lower()`: lowercase every character.  Defined
structurally over the character list (extensionally equal to core
`String.toLower`, whose byte-position recursion the kernel cannot
evaluate). -/
def strLower (s : String) : String :=
  String.mk (s.data.map Char.toLower)

/-- Outcome of one HTTP GET as seen by the caller: either an exception was
raised during the request/decoding, or a status code arrived with a decoded
body of type `β` (the body is only inspected on status 200). -/
inductive HttpResult (β : Type) where
  | raise : HttpResult β
  | status (code : Nat) (body : β) : HttpResult β

/-- TonTransfer payload of a TON action: `{amount, sender.address,
recipient.address}`; sender/recipient are `Option` because the Python code
reads them with `.get(..., 'Unknown')` defaults. -/
structure TonTransfer where
  amount : Nat
  sender : Option String
  recipient : Option String
  deriving DecidableEq

/-- One element of a TON event's `actions` array; `type'` is the JSON key
`type`, `tonTransfer` the optional `TonTransfer` sub-object. -/
structure TonAction where
  type' : String
  tonTransfer : Option TonTransfer
  deriving DecidableEq

/-- One element of the TON events list `{event_id, timestamp, actions}`. -/
structure TonEvent where
  event_id : String
  timestamp : Nat
  actions : List TonAction
  deriving DecidableEq

/-- One element of a BTC transaction's `out` array `{addr, value}`;
`addr` is `Option` because `output.get('addr')` may be absent. -/
structure BtcOut where
  addr : Option String
  value : Nat
  deriving DecidableEq

/-- One element of the BTC `txs` list `{hash, time, inputs, out}`.
The `inputs` array is read by `format_btc_transaction` but never used,
so it is not modelled. -/
structure BtcTx where
  hash : String
  time : Nat
  out : List BtcOut
  deriving DecidableEq

/-- One element of an Etherscan `result` transaction list
`{hash, timeStamp, value, from, to}`; `fromAddr`/`toAddr` are the JSON
keys `from`/`to` (reserved words in Lean). -/
structure EthTx where
  hash : String
  timeStamp : Nat
  value : Nat
  fromAddr : String
  toAddr : String
  deriving DecidableEq

/-- Etherscan envelope `{status, result}` with a transaction-list result. -/
structure EthListResp where
  status : String
  result : List EthTx
  deriving DecidableEq

/-- Etherscan envelope `{status, result}` with an integer result. -/
structure EthNatResp where
  status : String
  result : Nat
  deriving DecidableEq

/-- Embeds `get_ton_balance`.  First component: whether an HTTP request was
issued at all (the function returns `None` before the request when
`TONAPI_TOKEN` is absent).  Second component: the returned balance; the
`try/except` makes a raised exception yield `None`, as do non-200 statuses.
The 200 body is the integer `data['balance']` (nanotons), divided by 1e9. -/
def get_ton_balance (TONAPI_TOKEN : Option String) (resp : HttpResult Nat) :
    Bool × Option Rat :=
  match TONAPI_TOKEN with
  | none => (false, none)
  | some _ =>
    (true, match resp with
      | .raise => none
      | .status 200 bal => some ((bal : Rat) / (10 ^ 9 : Rat))
      | .status _ _ => none)

/-- Embeds `get_eth_balance`: returns `None` without a request when
`ETHERSCAN_TOKEN` is absent; otherwise the request is made, exceptions and
non-200 statuses and `status != '1'` bodies all yield `None`, and a
`status == '1'` body yields `result / 1e18`. -/
def get_eth_balance (ETHERSCAN_TOKEN : Option String) (resp : HttpResult EthNatResp) :
    Bool × Option Rat :=
  match ETHERSCAN_TOKEN with
  | none => (false, none)
  | some _ =>
    (true, match resp with
      | .raise => none
      | .status 200 body =>
        if body.status = "1" then some ((body.result : Rat) / (10 ^ 18 : Rat)) else none
      | .status _ _ => none)

/-- Embeds `get_usdt_balance`.  Unlike the TON and ETH balance fetchers it
performs no credential check: the request is attempted even when
`ETHERSCAN_TOKEN` is `None` (the token is merely interpolated into the query
string), so the first component is always `true`.  It also has no
`try/except`, so a raised exception propagates to the caller (`.error`). -/
def get_usdt_balance (ETHERSCAN_TOKEN : Option String) (resp : HttpResult EthNatResp) :
    Bool × Except Unit (Option Rat) :=
  match ETHERSCAN_TOKEN with
  | _ =>
    (true, match resp with
      | .raise => .error ()
      | .status 200 body =>
        .ok (if body.status = "1" then some ((body.result : Rat) / (10 ^ 6 : Rat)) else none)
      | .status _ _ => .ok none)

/-- Embeds `get_ton_transactions` (`limit=5` events request).  No credential
check is performed (the token is put in the header even when absent), so the
first component is always `true`; no `try/except`, so exceptions propagate;
non-200 statuses yield the empty list. -/
def get_ton_transactions (TONAPI_TOKEN : Option String)
    (resp : HttpResult (List TonEvent)) : Bool × Except Unit (List TonEvent) :=
  match TONAPI_TOKEN with
  | _ =>
    (true, match resp with
      | .raise => .error ()
      | .status 200 events => .ok events
      | .status _ _ => .ok [])

/-- Embeds `get_btc_transactions` (`limit=5`): the bare `try/except` makes
every failure, including raised exceptions, yield the empty list. -/
def get_btc_transactions (resp : HttpResult (List BtcTx)) : List BtcTx :=
  match resp with
  | .raise => []
  | .status 200 txs => txs
  | .status _ _ => []

/-- Embeds `get_eth_transactions` (newest-first, `offset=5`): no credential
check (always attempts the request), no `try/except` (exceptions propagate);
non-200 statuses and `status != '1'` bodies yield the empty list. -/
def get_eth_transactions (ETHERSCAN_TOKEN : Option String)
    (resp : HttpResult EthListResp) : Bool × Except Unit (List EthTx) :=
  match ETHERSCAN_TOKEN with
  | _ =>
    (true, match resp with
      | .raise => .error ()
      | .status 200 body => .ok (if body.status = "1" then body.result else [])
      | .status _ _ => .ok [])

/-- Embeds `get_usdt_transactions` (`tokentx` on the USDT contract,
newest-first, `offset=5`): identical control flow to `get_eth_transactions`,
in particular no credential check and no `try/except`. -/
def get_usdt_transactions (ETHERSCAN_TOKEN : Option String)
    (resp : HttpResult EthListResp) : Bool × Except Unit (List EthTx) :=
  match ETHERSCAN_TOKEN with
  | _ =>
    (true, match resp with
      | .raise => .error ()
      | .status 200 body => .ok (if body.status = "1" then body.result else [])
      | .status _ _ => .ok [])

/-- Embeds `format_ton_transaction`.  `fmtTime` abstracts
`datetime.fromtimestamp(...).strftime(...)`, whose text depends on the host
timezone.  Returns `none` exactly when the event's `actions` list is empty;
otherwise a message is always produced (with an empty detail part when the
first action's type is not `TonTransfer`). -/
def format_ton_transaction (fmtTime : Nat → String) (event : TonEvent)
    (wallet_address : String) : Option String :=
  match event.actions with
  | [] => none
  | action :: _ =>
    let head := "🔔 <b>TON - Новая транзакция!</b>\n\n" ++ "📅 " ++ fmtTime event.timestamp ++ "\n"
    let body :=
      if action.type' = "TonTransfer" then
        let amount := formatFixed ((action.tonTransfer.map TonTransfer.amount).getD 0) 9 4
        let sender := ((action.tonTransfer.bind TonTransfer.sender).getD "Unknown")
        let recipient := ((action.tonTransfer.bind TonTransfer.recipient).getD "Unknown")
        if recipient = wallet_address then
          "📥 <b>Входящий: +" ++ amount ++ " TON</b>\n" ++ "От: <code>" ++ truncAddr sender ++ "</code>\n"
        else
          "📤 <b>Исходящий: -" ++ amount ++ " TON</b>\n" ++ "Кому: <code>" ++ truncAddr recipient ++ "</code>\n"
      else ""
    some (head ++ body)

/-- Embeds the output scan of `format_btc_transaction`: folds over `tx.out`,
setting `is_incoming` and accumulating `value` for every output whose `addr`
equals the monitored address. -/
def btc_scan_outputs (wallet_address : String) (outputs : List BtcOut) : Bool × Nat :=
  outputs.foldl
    (fun acc o => if o.addr = some wallet_address then (true, acc.2 + o.value) else acc)
    (false, 0)

/-- Embeds `format_btc_transaction`: always returns a message; the amount is
accumulated only from outputs paying the monitored address, and the
direction is outgoing exactly when no output pays it. -/
def format_btc_transaction (fmtTime : Nat → String) (tx : BtcTx)
    (wallet_address : String) : Option String :=
  let head := "🔔 <b>BTC - Новая транзакция!</b>\n\n" ++ "📅 " ++ fmtTime tx.time ++ "\n"
  let scan := btc_scan_outputs wallet_address tx.out
  let amount_btc := formatFixed scan.2 8 8
  let dir :=
    if scan.1 then "📥 <b>Входящий: +" ++ amount_btc ++ " BTC</b>\n"
    else "📤 <b>Исходящий: -" ++ amount_btc ++ " BTC</b>\n"
  some (head ++ dir ++ "🔗 <code>" ++ tx.hash.take 16 ++ "...</code>\n")

/-- Embeds `format_eth_transaction`: always returns a message; direction by
case-insensitive comparison of `to` with the monitored address; amount is
`value / 1e18` printed with 6 decimals. -/
def format_eth_transaction (fmtTime : Nat → String) (tx : EthTx)
    (wallet_address : String) : Option String :=
  let head := "🔔 <b>ETH - Новая транзакция!</b>\n\n" ++ "📅 " ++ fmtTime tx.timeStamp ++ "\n"
  let amount := formatFixed tx.value 18 6
  let from_addr := strLower tx.fromAddr
  let to_addr := strLower tx.toAddr
  if to_addr = strLower wallet_address then
    some (head ++ "📥 <b>Входящий: +" ++ amount ++ " ETH</b>\n" ++ "От: <code>" ++ truncAddr from_addr ++ "</code>\n")
  else
    some (head ++ "📤 <b>Исходящий: -" ++ amount ++ " ETH</b>\n" ++ "Кому: <code>" ++ truncAddr to_addr ++ "</code>\n")

/-- Embeds `format_usdt_transaction`: as `format_eth_transaction` but with
divisor 1e6, 2 decimals and the USDT label. -/
def format_usdt_transaction (fmtTime : Nat → String) (tx : EthTx)
    (wallet_address : String) : Option String :=
  let head := "🔔 <b>USDT - Новая транзакция!</b>\n\n" ++ "📅 " ++ fmtTime tx.timeStamp ++ "\n"
  let amount := formatFixed tx.value 6 2
  let from_addr := strLower tx.fromAddr
  let to_addr := strLower tx.toAddr
  if to_addr = strLower wallet_address then
    some (head ++ "📥 <b>Входящий: +" ++ amount ++ " USDT</b>\n" ++ "От: <code>" ++ truncAddr from_addr ++ "</code>\n")
  else
    some (head ++ "📤 <b>Исходящий: -" ++ amount ++ " USDT</b>\n" ++ "Кому: <code>" ++ truncAddr to_addr ++ "</code>\n")

/-- The in-memory `last_transactions` cache: wallet key → last-seen id. -/
abbrev WM := String → Option String

/-- Embeds the key expression `f"{chat_id}_{coin}_{wallet_address}"`. -/
def wallet_key (chat_id : Int) (coin wallet_address : String) : String :=
  toString chat_id ++ "_" ++ coin ++ "_" ++ wallet_address

/-- Dict assignment `last_transactions[key] = v`. -/
def wmSet (wm : WM) (key v : String) : WM :=
  fun k => if k = key then some v else wm k

/-- Embeds the collection loop `for tx in transactions: if id(tx) == stored:
break; new_txs.append(tx)` — the newest-first prefix strictly before the
stored watermark id (the whole list when the id does not occur). -/
def collectUntil {α : Type} (txId : α → String) (w : String) : List α → List α
  | [] => []
  | t :: ts => if txId t = w then [] else t :: collectUntil txId w ts

/-- Embeds the notify loop `for tx in reversed(new_txs): ... await
bot.send_message(...)` over the already-formatted messages: `sendOk m`
tells whether sending message `m` succeeds.  Returns the messages actually
delivered (in order) and whether the loop completed without an exception; a
failing send raises, delivering nothing further. -/
def runSends (sendOk : String → Bool) : List String → List String × Bool
  | [] => ([], true)
  | m :: ms =>
    if sendOk m then
      let rest := runSends sendOk ms
      (m :: rest.1, rest.2)
    else ([], false)

/-- Common body of the four coin branches of `check_wallet_transactions`,
which are textually identical up to the id field (`event_id` vs `hash`) and
the formatter.  Given the fetched newest-first list: an empty list does
nothing; a missing watermark is seeded with the newest id and nothing is
sent; an unchanged watermark does nothing; otherwise the pre-watermark
prefix is collected, formatted (formatter `none` results are skipped),
sent oldest-first, and the watermark is advanced to the newest id — unless a
send raised, in which case the exception reaches the surrounding
`try/except` and the watermark assignment is skipped.  Returns the
`(chat_id, message)` pairs delivered and the updated cache. -/
def check_branch {α : Type} (sendOk : String → Bool) (chat_id : Int) (key : String)
    (txId : α → String) (format : α → Option String) (transactions : List α)
    (wm : WM) : List (Int × String) × WM :=
  match transactions with
  | [] => ([], wm)
  | latest :: _ =>
    let latestId := txId latest
    match wm key with
    | none => ([], wmSet wm key latestId)
    | some w =>
      if w ≠ latestId then
        let msgs := ((collectUntil txId w transactions).reverse).filterMap format
        let sent := runSends sendOk msgs
        (sent.1.map (fun m => (chat_id, m)),
         if sent.2 then wmSet wm key latestId else wm)
      else ([], wm)

/-- The ambient state a monitoring cycle runs against: the two credential
globals, the timestamp renderer, the external world's per-address HTTP
responses for each chain's transaction endpoint, and the delivery outcome of
`bot.send_message` per chat and message. -/
structure MonitorEnv where
  TONAPI_TOKEN : Option String
  ETHERSCAN_TOKEN : Option String
  fmtTime : Nat → String
  tonHttp : String → HttpResult (List TonEvent)
  btcHttp : String → HttpResult (List BtcTx)
  ethHttp : String → HttpResult EthListResp
  usdtHttp : String → HttpResult EthListResp
  sendOk : Int → String → Bool

/-- Embeds `check_wallet_transactions`: dispatches on the coin string,
fetches that chain's transactions and runs the shared branch body.  A fetch
that raises is caught by the function's own `try/except` (nothing sent,
cache unchanged); an unknown coin string matches no branch. -/
def check_wallet_transactions (env : MonitorEnv) (chat_id : Int)
    (wallet_address coin : String) (wm : WM) : List (Int × String) × WM :=
  let key := wallet_key chat_id coin wallet_address
  if coin = "TON" then
    match (get_ton_transactions env.TONAPI_TOKEN (env.tonHttp wallet_address)).2 with
    | .error _ => ([], wm)
    | .ok transactions =>
      check_branch (env.sendOk chat_id) chat_id key (fun e => e.event_id)
        (fun e => format_ton_transaction env.fmtTime e wallet_address) transactions wm
  else if coin = "BTC" then
    check_branch (env.sendOk chat_id) chat_id key (fun t => t.hash)
      (fun t => format_btc_transaction env.fmtTime t wallet_address)
      (get_btc_transactions (env.btcHttp wallet_address)) wm
  else if coin = "ETH" then
    match (get_eth_transactions env.ETHERSCAN_TOKEN (env.ethHttp wallet_address)).2 with
    | .error _ => ([], wm)
    | .ok transactions =>
      check_branch (env.sendOk chat_id) chat_id key (fun t => t.hash)
        (fun t => format_eth_transaction env.fmtTime t wallet_address) transactions wm
  else if coin = "USDT" then
    match (get_usdt_transactions env.ETHERSCAN_TOKEN (env.usdtHttp wallet_address)).2 with
    | .error _ => ([], wm)
    | .ok transactions =>
      check_branch (env.sendOk chat_id) chat_id key (fun t => t.hash)
        (fun t => format_usdt_transaction env.fmtTime t wallet_address) transactions wm
  else ([], wm)

/-- A wallet record `{coin, address, added_at}` as stored in wallets.json. -/
structure WalletRecord where
  coin : String
  address : String
  added_at : String
  deriving DecidableEq

/-- The persisted wallet store: chat-id string → list of records, modelled
as an insertion-ordered association list (a JSON object / Python dict). -/
abbrev Store := List (String × List WalletRecord)

/-- Dict membership/lookup: first entry with the given key. -/
def storeLookup : Store → String → Option (List WalletRecord)
  | [], _ => none
  | (k, v) :: rest, c => if k = c then some v else storeLookup rest c

/-- Dict assignment to an existing key: replaces the value in place. -/
def setKey : Store → String → List WalletRecord → Store
  | [], _, _ => []
  | (k, w) :: rest, c, v => (if k = c then (c, v) else (k, w)) :: setKey rest c v

/-- Dict `del s[c]`. -/
def removeKey : Store → String → Store
  | [], _ => []
  | (k, v) :: rest, c => if k = c then removeKey rest c else (k, v) :: removeKey rest c

/-- Embeds `if chat_id not in wallets: wallets[chat_id] = []` of
`wallet_address_entered`: ensure the chat key exists, appending an empty
list at the end (dict insertion order) when it does not. -/
def ensure_chat (wallets : Store) (chat_id : String) : Store :=
  if (storeLookup wallets chat_id).isSome then wallets else wallets ++ [(chat_id, [])]

/-- Embeds the duplicate scan of `wallet_address_entered`:
`wallet['address'] == address and wallet['coin'] == coin` over the chat's
list. -/
def find_dup (ws : List WalletRecord) (address coin : String) : Bool :=
  ws.any (fun w => w.address = address && w.coin = coin)

/-- Embeds the store mutation of `wallet_address_entered`: ensure the chat
key exists (in memory), report "already added" without saving when a record
with the same (coin, address) is present — so the persisted store stays the
original `wallets` — and otherwise append the new record and save.  First
component: whether the wallet was added. -/
def wallet_address_entered (wallets : Store) (chat_id coin address added_at : String) :
    Bool × Store :=
  let wallets1 := ensure_chat wallets chat_id
  let cur := (storeLookup wallets1 chat_id).getD []
  if find_dup cur address coin then
    (false, wallets)
  else
    (true, setKey wallets1 chat_id (cur ++ [⟨coin, address, added_at⟩]))

/-- Embeds the store mutation of `delete_wallet_confirm`: when the chat is
known and the index in range, pop the record at that index, delete the
chat's entry if its list became empty, and save; otherwise report an error
without mutating.  First component: the deleted record, if any. -/
def delete_wallet_confirm (wallets : Store) (chat_id : String) (wallet_index : Nat) :
    Option WalletRecord × Store :=
  match storeLookup wallets chat_id with
  | none => (none, wallets)
  | some l =>
    if hi : wallet_index < l.length then
      let deleted := l.get ⟨wallet_index, hi⟩
      let remaining := l.eraseIdx wallet_index
      (some deleted,
       if remaining.isEmpty then removeKey wallets chat_id
       else setKey wallets chat_id remaining)
    else (none, wallets)

/-- A store mutation performed through one of the two handlers. -/
inductive StoreOp where
  | addOp (chat coin address added_at : String)
  | removeOp (chat : String) (idx : Nat)

/-- Applies one handler mutation to the persisted store. -/
def applyOp (s : Store) : StoreOp → Store
  | .addOp chat coin address added_at => (wallet_address_entered s chat coin address added_at).2
  | .removeOp chat idx => (delete_wallet_confirm s chat idx).2

/-- Applies a sequence of handler mutations, oldest first, to the empty
store (what `load_wallets` yields before any wallet is registered). -/
def applyOps : List StoreOp → Store
  | [] => []
  | op :: ops => applyOp (applyOps ops) op

/-- No two records of the list share (coin, address). -/
def RecordsUnique (l : List WalletRecord) : Prop :=
  List.Pairwise (fun a b => ¬(a.coin = b.coin ∧ a.address = b.address)) l

/-- Every chat's list in the store satisfies `RecordsUnique`. -/
def StoreUnique (s : Store) : Prop :=
  ∀ c l, storeLookup s c = some l → RecordsUnique l

/-- Embeds the inner wallet loop of one `monitor_all_wallets` cycle for a
single chat: each wallet of the chat is checked in order, threading the
watermark cache and concatenating the delivered messages. -/
def process_user_wallets (env : MonitorEnv) (chat_id : Int) :
    List WalletRecord → WM → List (Int × String) × WM
  | [], wm => ([], wm)
  | w :: ws, wm =>
    let r1 := check_wallet_transactions env chat_id w.address w.coin wm
    let r2 := process_user_wallets env chat_id ws r1.2
    (r1.1 ++ r2.1, r2.2)

/-- Embeds one iteration of the `while True` body of `monitor_all_wallets`:
iterate the loaded store chat by chat, converting the chat key with
`int(chat_id)`.  A key that fails to parse makes `int()` raise; the
exception is caught by the loop's outer guard, ending the cycle early (the
loop itself then sleeps and continues). -/
def monitor_cycle (env : MonitorEnv) : Store → WM → List (Int × String) × WM
  | [], wm => ([], wm)
  | (chat, ws) :: rest, wm =>
    match chat.toInt? with
    | none => ([], wm)
    | some cid =>
      let r1 := process_user_wallets env cid ws wm
      let r2 := monitor_cycle env rest r1.2
      (r1.1 ++ r2.1, r2.2)

/-- A concrete monitoring environment used for witnesses: every fetch
succeeds, the TON events endpoint returns one event, and every send
succeeds. -/
def envSeed : MonitorEnv :=
  ⟨some "tok", some "key", fun _ => "T",
   fun _ => .status 200 [⟨"e1", 0, []⟩],
   fun _ => .status 200 [⟨"h1", 0, []⟩],
   fun _ => .status 200 ⟨"1", [⟨"he1", 0, 0, "f", "t"⟩]⟩,
   fun _ => .status 200 ⟨"1", []⟩,
   fun _ _ => true⟩

/-- An empty watermark cache (fresh process). -/
def wmEmpty : WM := fun _ => none

/-- Environment in which the TON events endpoint returns one new event with
an empty `actions` list ahead of the already-seen event "a". -/
def envTonGap : MonitorEnv :=
  ⟨some "tok", some "key", fun _ => "T",
   fun _ => .status 200 [⟨"b", 5, []⟩, ⟨"a", 4, []⟩],
   fun _ => .status 200 [],
   fun _ => .status 200 ⟨"1", []⟩,
   fun _ => .status 200 ⟨"1", []⟩,
   fun _ _ => true⟩

/-- Watermark cache that has already seen TON event "a" for chat 1,
wallet "A". -/
def wmTonGap : WM :=
  fun k => if k = wallet_key 1 "TON" "A" then some "a" else none

/-- Environment in which the ETH endpoint returns one new transaction "hb"
ahead of the already-seen "ha", and every `bot.send_message` raises. -/
def envEthFail : MonitorEnv :=
  ⟨some "tok", some "key", fun _ => "T",
   fun _ => .status 200 [],
   fun _ => .status 200 [],
   fun _ => .status 200 ⟨"1", [⟨"hb", 0, 10, "f", "t"⟩, ⟨"ha", 0, 5, "f", "t"⟩]⟩,
   fun _ => .status 200 ⟨"1", []⟩,
   fun _ _ => false⟩

/-- Watermark cache that has already seen ETH transaction "ha" for chat 1,
wallet "A". -/
def wmEthFail : WM :=
  fun k => if k = wallet_key 1 "ETH" "A" then some "ha" else none

/-- Environment in which every TON request raises a network exception while
the other chains respond normally (BTC returns one transaction "h1" for a
fresh wallet). -/
def envRaise : MonitorEnv :=
  ⟨some "tok", some "key", fun _ => "T",
   fun _ => .raise,
   fun _ => .status 200 [⟨"h1", 0, []⟩],
   fun _ => .status 200 ⟨"1", []⟩,
   fun _ => .status 200 ⟨"1", []⟩,
   fun _ _ => true⟩

/-- Concrete records and a concrete two-chat store used in witnesses. -/
def recTonA : WalletRecord := ⟨"TON", "A", "t0"⟩

/-- A BTC record for chat "1" (witness data). -/
def recBtcB : WalletRecord := ⟨"BTC", "B", "t1"⟩

/-- An ETH record for chat "2" (witness data). -/
def recEthC : WalletRecord := ⟨"ETH", "C", "t2"⟩

/-- A concrete persisted store with two chats (witness data). -/
def storeW : Store := [("1", [recTonA, recBtcB]), ("2", [recEthC])]

section Theorems

/-- Helper: a branch whose wallet key has no stored watermark seeds the
newest id and sends nothing. -/
theorem check_branch_wm_none {α : Type} (sendOk : String → Bool) (chat_id : Int)
    (key : String) (txId : α → String) (format : α → Option String)
    (t : α) (ts : List α) (wm : WM) (h : wm key = none) :
    check_branch sendOk chat_id key txId format (t :: ts) wm
      = ([], wmSet wm key (txId t)) := by
  simp [check_branch, h]

/-- Helper: a branch whose stored watermark equals the newest fetched id
does nothing. -/
theorem check_branch_wm_same {α : Type} (sendOk : String → Bool) (chat_id : Int)
    (key : String) (txId : α → String) (format : α → Option String)
    (t : α) (ts : List α) (wm : WM) (h : wm key = some (txId t)) :
    check_branch sendOk chat_id key txId format (t :: ts) wm = ([], wm) := by
  simp [check_branch, h]

/-- C2: for every wallet (of any of the four coins) whose key has no stored
watermark, the first poll that successfully fetches a non-empty transaction
list stores the newest transaction's id as the watermark and emits zero
notifications, regardless of how many transactions the fetched list holds. -/
theorem first_poll_seeds_baseline (env : MonitorEnv) (cid : Int) (addr : String)
    (wm : WM) :
    (∀ e es, (get_ton_transactions env.TONAPI_TOKEN (env.tonHttp addr)).2 = .ok (e :: es) →
      wm (wallet_key cid "TON" addr) = none →
      check_wallet_transactions env cid addr "TON" wm
        = ([], wmSet wm (wallet_key cid "TON" addr) e.event_id))
    ∧ (∀ t ts, get_btc_transactions (env.btcHttp addr) = t :: ts →
      wm (wallet_key cid "BTC" addr) = none →
      check_wallet_transactions env cid addr "BTC" wm
        = ([], wmSet wm (wallet_key cid "BTC" addr) t.hash))
    ∧ (∀ t ts, (get_eth_transactions env.ETHERSCAN_TOKEN (env.ethHttp addr)).2 = .ok (t :: ts) →
      wm (wallet_key cid "ETH" addr) = none →
      check_wallet_transactions env cid addr "ETH" wm
        = ([], wmSet wm (wallet_key cid "ETH" addr) t.hash))
    ∧ (∀ t ts, (get_usdt_transactions env.ETHERSCAN_TOKEN (env.usdtHttp addr)).2 = .ok (t :: ts) →
      wm (wallet_key cid "USDT" addr) = none →
      check_wallet_transactions env cid addr "USDT" wm
        = ([], wmSet wm (wallet_key cid "USDT" addr) t.hash)) := by
  refine ⟨?_, ?_, ?_, ?_⟩
  · intro e es hf hw
    unfold check_wallet_transactions
    rw [if_pos rfl, hf]
    exact check_branch_wm_none _ _ _ _ _ _ _ _ hw
  · intro t ts hf hw
    unfold check_wallet_transactions
    rw [if_neg (by decide), if_pos rfl, hf]
    exact check_branch_wm_none _ _ _ _ _ _ _ _ hw
  · intro t ts hf hw
    unfold check_wallet_transactions
    rw [if_neg (by decide), if_neg (by decide), if_pos rfl, hf]
    exact check_branch_wm_none _ _ _ _ _ _ _ _ hw
  · intro t ts hf hw
    unfold check_wallet_transactions
    rw [if_neg (by decide), if_neg (by decide), if_neg (by decide), if_pos rfl, hf]
    exact check_branch_wm_none _ _ _ _ _ _ _ _ hw

/-- Witness for C2: a fresh TON wallet's first successful poll stores the
fetched newest event id "e1" and sends nothing. -/
theorem first_poll_seeds_baseline_witness :
    check_wallet_transactions envSeed 7 "A" "TON" wmEmpty
      = ([], wmSet wmEmpty (wallet_key 7 "TON" "A") "e1") :=
  (first_poll_seeds_baseline envSeed 7 "A" wmEmpty).1 ⟨"e1", 0, []⟩ [] rfl rfl

/-- C8: for every wallet with an existing watermark, if the fetched list's
newest id equals the stored watermark, the poll emits zero notifications
and leaves the cache entirely unchanged, and iterating the poll any number
of times (with the same fetched list) still leaves it unchanged. -/
theorem poll_without_new_transactions_is_noop {α : Type} (sendOk : String → Bool)
    (cid : Int) (key : String) (txId : α → String) (fmt : α → Option String)
    (t : α) (ts : List α) (wm : WM) (h : wm key = some (txId t)) :
    check_branch sendOk cid key txId fmt (t :: ts) wm = ([], wm)
    ∧ ∀ n : Nat,
        (fun m => (check_branch sendOk cid key txId fmt (t :: ts) m).2)^[n] wm = wm := by
  refine ⟨check_branch_wm_same _ _ _ _ _ _ _ _ h, ?_⟩
  intro n
  induction n with
  | zero => rfl
  | succ n ih =>
    rw [Function.iterate_succ_apply]
    have hstep : (check_branch sendOk cid key txId fmt (t :: ts) wm).2 = wm := by
      rw [check_branch_wm_same _ _ _ _ _ _ _ _ h]
    simp only [hstep, ih]

/-- Witness for C8: with watermark "b" stored and fetched list ["b", "a"],
one poll (and any iteration of it) emits nothing and keeps the cache. -/
theorem poll_without_new_transactions_is_noop_witness :
    (fun k => if k = "k" then some "b" else none) "k" = some "b"
    ∧ (check_branch (fun _ => true) 1 "k" (fun s : String => s) (fun s => some s)
        ["b", "a"] (fun k => if k = "k" then some "b" else none) =
          ([], fun k => if k = "k" then some "b" else none)
      ∧ ∀ n : Nat,
          (fun m => (check_branch (fun _ => true) 1 "k" (fun s : String => s)
            (fun s => some s) ["b", "a"] m).2)^[n]
            (fun k => if k = "k" then some "b" else none)
            = (fun k => if k = "k" then some "b" else none)) :=
  ⟨by decide,
   poll_without_new_transactions_is_noop (fun _ => true) 1 "k" (fun s : String => s)
     (fun s => some s) "b" ["a"] (fun k => if k = "k" then some "b" else none) (by decide)⟩

/-- C7 (amended): only the TON and ETH balance fetchers guard on their
credential and fail without issuing the HTTP request; the USDT balance
fetcher and the TON/ETH/USDT transaction fetchers issue the request even
when the credential is absent. -/
theorem missing_credential_behaviour (rN : HttpResult Nat) (rE rU : HttpResult EthNatResp)
    (rT : HttpResult (List TonEvent)) (rL rL' : HttpResult EthListResp) :
    get_ton_balance none rN = (false, none)
    ∧ get_eth_balance none rE = (false, none)
    ∧ (get_usdt_balance none rU).1 = true
    ∧ (get_ton_transactions none rT).1 = true
    ∧ (get_eth_transactions none rL).1 = true
    ∧ (get_usdt_transactions none rL').1 = true :=
  ⟨rfl, rfl, rfl, rfl, rfl, rfl⟩

/-- Counterexample to C7 as stated: with no credential configured, the USDT
balance fetch and the TON transactions fetch still attempt the external
call (first component `true`), instead of failing without attempting it. -/
theorem missing_credential_counterexample :
    (get_usdt_balance none (.status 500 ⟨"0", 0⟩)).1 = true
    ∧ (get_ton_transactions none (.status 500 [])).1 = true
    ∧ (get_eth_transactions none (.status 500 ⟨"0", []⟩)).1 = true
    ∧ (get_usdt_transactions none (.status 500 ⟨"0", []⟩)).1 = true := by
  exact ⟨rfl, rfl, rfl, rfl⟩

/-- Helper: when every send succeeds, the notify loop delivers every message
and completes. -/
theorem runSends_all_true (sendOk : String → Bool) (h : ∀ m, sendOk m = true) :
    ∀ l : List String, runSends sendOk l = (l, true) := by
  intro l
  induction l with
  | nil => rfl
  | cons m ms ih => simp [runSends, h m, ih]

/-- Helper: `filterMap` drops nothing when the function is `some`-valued on
the whole list. -/
theorem filterMap_length_of_isSome {α β : Type} (f : α → Option β) :
    ∀ l : List α, (∀ x ∈ l, (f x).isSome) → (l.filterMap f).length = l.length := by
  intro l h
  induction l with
  | nil => rfl
  | cons a l ih =>
    have ha := h a (List.mem_cons_self a l)
    cases hfa : f a with
    | none => rw [hfa] at ha; simp at ha
    | some b =>
      simp [List.filterMap_cons, hfa, ih (fun x hx => h x (List.mem_cons_of_mem _ hx))]

/-- Helper: when the stored id does not occur in the fetched page, the
collection loop never breaks and collects the whole page. -/
theorem collectUntil_eq_self {α : Type} (txId : α → String) (w : String) :
    ∀ l : List α, w ∉ l.map txId → collectUntil txId w l = l := by
  intro l h
  induction l with
  | nil => rfl
  | cons t ts ih =>
    simp only [List.map_cons, List.mem_cons, not_or] at h
    rw [collectUntil, if_neg (fun hh => h.1 hh.symm), ih h.2]

/-- C1 (amended): for a wallet with stored watermark `w`, when the fetched
newest-first page starts with a transaction whose id differs from `w` and
every send succeeds, the poll emits exactly the pre-watermark prefix,
reversed (oldest first) and formatted — one notification per new
transaction whose formatter yields a message, which is every one when the
formatter is `some`-valued on the prefix — and the stored watermark becomes
the newest transaction's id; when `w` does not occur in the page at all,
the collected prefix is the entire page. -/
theorem new_transactions_notified_oldest_first {α : Type} (sendOk : String → Bool)
    (cid : Int) (key : String) (txId : α → String) (fmt : α → Option String)
    (t : α) (ts : List α) (wm : WM) (w : String)
    (hw : wm key = some w) (hne : txId t ≠ w) (hsend : ∀ m, sendOk m = true) :
    check_branch sendOk cid key txId fmt (t :: ts) wm
      = (((collectUntil txId w (t :: ts)).reverse.filterMap fmt).map (fun m => (cid, m)),
         wmSet wm key (txId t))
    ∧ ((∀ tx ∈ collectUntil txId w (t :: ts), (fmt tx).isSome) →
        ((collectUntil txId w (t :: ts)).reverse.filterMap fmt).length
          = (collectUntil txId w (t :: ts)).length)
    ∧ (w ∉ (t :: ts).map txId → collectUntil txId w (t :: ts) = t :: ts) := by
  refine ⟨?_, ?_, collectUntil_eq_self txId w (t :: ts)⟩
  · simp only [check_branch, hw]
    rw [if_pos (Ne.symm hne), runSends_all_true sendOk hsend]
    rfl
  · intro hall
    rw [filterMap_length_of_isSome fmt _
      (fun x hx => hall x (List.mem_reverse.mp hx)), List.length_reverse]

/-- Witness for C1: stored watermark "a", fetched page ["c", "b", "a"]: the
poll emits the two new ids oldest-first and advances the watermark to "c". -/
theorem new_transactions_notified_oldest_first_witness :
    ("c" : String) ≠ "a"
    ∧ check_branch (fun _ => true) 1 "k" (fun s : String => s) (fun s => some s)
        ["c", "b", "a"] (fun k => if k = "k" then some "a" else none)
        = (((collectUntil (fun s : String => s) "a" ["c", "b", "a"]).reverse.filterMap
              (fun s => some s)).map (fun m => ((1 : Int), m)),
           wmSet (fun k => if k = "k" then some "a" else none) "k" "c") :=
  ⟨by decide,
   (new_transactions_notified_oldest_first (fun _ => true) 1 "k" (fun s : String => s)
      (fun s => some s) "c" ["b", "a"] (fun k => if k = "k" then some "a" else none) "a"
      (by decide) (by decide) (fun _ => rfl)).1⟩

/-- Counterexample to C1 as stated: a TON poll with exactly one new event
(N = 1) whose `actions` list is empty emits zero notifications, not one —
`format_ton_transaction` returns `none` for it — although the watermark
still advances to the new event's id "b". -/
theorem ton_event_without_actions_counterexample :
    (collectUntil (fun e : TonEvent => e.event_id) "a"
        [⟨"b", 5, []⟩, ⟨"a", 4, []⟩]).length = 1
    ∧ (check_wallet_transactions envTonGap 1 "A" "TON" wmTonGap).1 = []
    ∧ (check_wallet_transactions envTonGap 1 "A" "TON" wmTonGap).2
        (wallet_key 1 "TON" "A") = some "b" := by
  refine ⟨by decide, by decide, by decide⟩

/-- C3 (amended): for a wallet with pending new transactions, the watermark
is advanced only when the whole notify loop completes: if some send fails,
the raised exception skips the watermark assignment and the cache is left
unchanged (so the same transactions are re-processed next cycle); only
when every send succeeds does the watermark advance to the newest id.  The
emitted messages are exactly those delivered before the first failure. -/
theorem watermark_not_advanced_on_send_failure {α : Type} (sendOk : String → Bool)
    (cid : Int) (key : String) (txId : α → String) (fmt : α → Option String)
    (t : α) (ts : List α) (wm : WM) (w : String)
    (hw : wm key = some w) (hne : w ≠ txId t) :
    ((runSends sendOk ((collectUntil txId w (t :: ts)).reverse.filterMap fmt)).2 = false →
      (check_branch sendOk cid key txId fmt (t :: ts) wm).2 = wm)
    ∧ ((runSends sendOk ((collectUntil txId w (t :: ts)).reverse.filterMap fmt)).2 = true →
      (check_branch sendOk cid key txId fmt (t :: ts) wm).2 = wmSet wm key (txId t))
    ∧ (check_branch sendOk cid key txId fmt (t :: ts) wm).1
        = (runSends sendOk ((collectUntil txId w (t :: ts)).reverse.filterMap fmt)).1.map
            (fun m => (cid, m)) := by
  have hbr : check_branch sendOk cid key txId fmt (t :: ts) wm
      = ((runSends sendOk ((collectUntil txId w (t :: ts)).reverse.filterMap fmt)).1.map
           (fun m => (cid, m)),
         if (runSends sendOk ((collectUntil txId w (t :: ts)).reverse.filterMap fmt)).2
         then wmSet wm key (txId t) else wm) := by
    simp only [check_branch, hw]
    rw [if_pos hne]
  refine ⟨fun hf => ?_, fun ht => ?_, ?_⟩
  · rw [hbr]
    simp only [hf, Bool.false_eq_true, if_false]
  · rw [hbr]
    simp only [ht, if_true]
  · rw [hbr]

/-- Witness for C3 (amended): with one new transaction "b" and a failing
send, the watermark stays at "a". -/
theorem watermark_not_advanced_on_send_failure_witness :
    ("a" : String) ≠ "b"
    ∧ (check_branch (fun _ => false) 1 "k" (fun s : String => s) (fun s => some s)
        ["b", "a"] (fun k => if k = "k" then some "a" else none)).2
        = (fun k => if k = "k" then some "a" else none) :=
  ⟨by decide,
   (watermark_not_advanced_on_send_failure (fun _ => false) 1 "k" (fun s : String => s)
      (fun s => some s) "b" ["a"] (fun k => if k = "k" then some "a" else none) "a"
      (by decide) (by decide)).1 (by decide)⟩

/-- Counterexample to C3 as stated: the ETH endpoint reports one new
transaction "hb" past the stored watermark "ha", the send raises, and the
watermark is NOT advanced for that cycle — it stays "ha" instead of
becoming "hb" as the claim asserts. -/
theorem send_failure_counterexample :
    (collectUntil (fun t : EthTx => t.hash) "ha"
        [⟨"hb", 0, 10, "f", "t"⟩, ⟨"ha", 0, 5, "f", "t"⟩]).length = 1
    ∧ (check_wallet_transactions envEthFail 1 "A" "ETH" wmEthFail).2
        (wallet_key 1 "ETH" "A") = some "ha"
    ∧ (check_wallet_transactions envEthFail 1 "A" "ETH" wmEthFail).2
        (wallet_key 1 "ETH" "A") ≠ some "hb" := by
  refine ⟨by decide, by decide, by decide⟩

/-- Helper: a fetch that raises is caught by the per-wallet guard of
`check_wallet_transactions`: nothing is sent and the cache is unchanged. -/
theorem check_wallet_transactions_raise (env : MonitorEnv) (cid : Int)
    (addr coin : String) (wm : WM)
    (h : (coin = "TON" ∧ env.tonHttp addr = .raise)
       ∨ (coin = "BTC" ∧ env.btcHttp addr = .raise)
       ∨ (coin = "ETH" ∧ env.ethHttp addr = .raise)
       ∨ (coin = "USDT" ∧ env.usdtHttp addr = .raise)) :
    check_wallet_transactions env cid addr coin wm = ([], wm) := by
  rcases h with ⟨hc, hr⟩ | ⟨hc, hr⟩ | ⟨hc, hr⟩ | ⟨hc, hr⟩ <;> subst hc
  · unfold check_wallet_transactions
    rw [if_pos rfl, hr]
    rfl
  · unfold check_wallet_transactions
    rw [if_neg (by decide), if_pos rfl, hr]
    rfl
  · unfold check_wallet_transactions
    rw [if_neg (by decide), if_neg (by decide), if_pos rfl, hr]
    rfl
  · unfold check_wallet_transactions
    rw [if_neg (by decide), if_neg (by decide), if_neg (by decide), if_pos rfl, hr]
    rfl

/-- Helper: a wallet whose check is a no-op for every cache contributes
nothing to its chat's wallet loop. -/
theorem process_user_wallets_skip (env : MonitorEnv) (cid : Int) (w : WalletRecord)
    (hcheck : ∀ wm, check_wallet_transactions env cid w.address w.coin wm = ([], wm)) :
    ∀ (ws1 ws2 : List WalletRecord) (wm : WM),
      process_user_wallets env cid (ws1 ++ w :: ws2) wm
        = process_user_wallets env cid (ws1 ++ ws2) wm := by
  intro ws1
  induction ws1 with
  | nil =>
    intro ws2 wm
    show process_user_wallets env cid (w :: ws2) wm = process_user_wallets env cid ws2 wm
    simp [process_user_wallets, hcheck wm]
  | cons x ws1 ih =>
    intro ws2 wm
    show process_user_wallets env cid (x :: (ws1 ++ w :: ws2)) wm
        = process_user_wallets env cid (x :: (ws1 ++ ws2)) wm
    simp only [process_user_wallets]
    rw [ih]

/-- C4: an exception raised while polling one wallet (here: the fetch
request raising, e.g. a network error) is caught inside
`check_wallet_transactions`; the monitoring cycle produces exactly the
notifications and cache updates it would produce without that wallet — all
other wallets of the cycle, before and after it and in other chats, are
still polled, and the cycle function is total (no error terminates it). -/
theorem one_wallet_failure_is_isolated (env : MonitorEnv) (cs1 : Store) (chat : String)
    (ws1 : List WalletRecord) (w : WalletRecord) (ws2 : List WalletRecord)
    (cs2 : Store) (wm : WM)
    (h : (w.coin = "TON" ∧ env.tonHttp w.address = .raise)
       ∨ (w.coin = "BTC" ∧ env.btcHttp w.address = .raise)
       ∨ (w.coin = "ETH" ∧ env.ethHttp w.address = .raise)
       ∨ (w.coin = "USDT" ∧ env.usdtHttp w.address = .raise)) :
    monitor_cycle env (cs1 ++ (chat, ws1 ++ w :: ws2) :: cs2) wm
      = monitor_cycle env (cs1 ++ (chat, ws1 ++ ws2) :: cs2) wm := by
  have hcheck : ∀ cid wm, check_wallet_transactions env cid w.address w.coin wm = ([], wm) :=
    fun cid wm => check_wallet_transactions_raise env cid w.address w.coin wm h
  induction cs1 generalizing wm with
  | nil =>
    show monitor_cycle env ((chat, ws1 ++ w :: ws2) :: cs2) wm
        = monitor_cycle env ((chat, ws1 ++ ws2) :: cs2) wm
    cases h2 : chat.toInt? with
    | none => simp only [monitor_cycle, h2]
    | some cid =>
      simp only [monitor_cycle, h2]
      rw [process_user_wallets_skip env cid w (hcheck cid)]
  | cons c cs ih =>
    obtain ⟨c1, c2⟩ := c
    show monitor_cycle env ((c1, c2) :: (cs ++ (chat, ws1 ++ w :: ws2) :: cs2)) wm
        = monitor_cycle env ((c1, c2) :: (cs ++ (chat, ws1 ++ ws2) :: cs2)) wm
    cases h2 : c1.toInt? with
    | none => simp only [monitor_cycle, h2]
    | some cid =>
      simp only [monitor_cycle, h2]
      rw [ih]

/-- Witness for C4: TON requests raise; a cycle over one chat holding the
failing TON wallet followed by a BTC wallet equals the cycle without the
TON wallet. -/
theorem one_wallet_failure_is_isolated_witness :
    monitor_cycle envRaise [("1", [⟨"TON", "X", "t0"⟩, ⟨"BTC", "Y", "t1"⟩])] wmEmpty
      = monitor_cycle envRaise [("1", [⟨"BTC", "Y", "t1"⟩])] wmEmpty :=
  one_wallet_failure_is_isolated envRaise [] "1" [] ⟨"TON", "X", "t0"⟩
    [⟨"BTC", "Y", "t1"⟩] [] wmEmpty (Or.inl ⟨rfl, rfl⟩)

/-- Helper: appending a fresh key at the end makes it found when it was
absent before. -/
theorem storeLookup_append_single_self (s : Store) (c : String) (v : List WalletRecord)
    (h : storeLookup s c = none) : storeLookup (s ++ [(c, v)]) c = some v := by
  induction s with
  | nil => simp [storeLookup]
  | cons p rest ih =>
    obtain ⟨k, w⟩ := p
    by_cases hk : k = c
    · rw [storeLookup, if_pos hk] at h
      exact absurd h (by simp)
    · rw [storeLookup, if_neg hk] at h
      rw [List.cons_append, storeLookup, if_neg hk]
      exact ih h

/-- Helper: appending an entry for another key does not affect a lookup. -/
theorem storeLookup_append_single_ne (s : Store) (c c' : String) (v : List WalletRecord)
    (h : c' ≠ c) : storeLookup (s ++ [(c, v)]) c' = storeLookup s c' := by
  induction s with
  | nil =>
    simp only [List.nil_append, storeLookup]
    rw [if_neg (fun hh => h hh.symm)]
  | cons p rest ih =>
    obtain ⟨k, w⟩ := p
    by_cases hk : k = c'
    · rw [List.cons_append, storeLookup, if_pos hk, storeLookup, if_pos hk]
    · rw [List.cons_append, storeLookup, if_neg hk, storeLookup, if_neg hk, ih]

/-- Helper: assignment to a present key is observed by a lookup of it. -/
theorem storeLookup_setKey_self (s : Store) (c : String) (v l : List WalletRecord)
    (h : storeLookup s c = some l) : storeLookup (setKey s c v) c = some v := by
  induction s with
  | nil => rw [storeLookup] at h; exact absurd h (by simp)
  | cons p rest ih =>
    obtain ⟨k, w⟩ := p
    by_cases hk : k = c
    · rw [setKey, if_pos hk, storeLookup, if_pos rfl]
    · rw [storeLookup, if_neg hk] at h
      rw [setKey, if_neg hk, storeLookup, if_neg hk]
      exact ih h

/-- Helper: assignment to one key does not affect lookups of other keys. -/
theorem storeLookup_setKey_ne (s : Store) (c c' : String) (v : List WalletRecord)
    (h : c' ≠ c) : storeLookup (setKey s c v) c' = storeLookup s c' := by
  induction s with
  | nil => rfl
  | cons p rest ih =>
    obtain ⟨k, w⟩ := p
    by_cases hk : k = c
    · rw [setKey, if_pos hk, storeLookup, if_neg (fun hh => h hh.symm), storeLookup,
        if_neg (fun hh => h (hh.symm.trans hk)), ih]
    · by_cases hk' : k = c'
      · rw [setKey, if_neg hk, storeLookup, if_pos hk', storeLookup, if_pos hk']
      · rw [setKey, if_neg hk, storeLookup, if_neg hk', storeLookup, if_neg hk', ih]

/-- Helper: a deleted key is no longer found. -/
theorem storeLookup_removeKey_self (s : Store) (c : String) :
    storeLookup (removeKey s c) c = none := by
  induction s with
  | nil => rfl
  | cons p rest ih =>
    obtain ⟨k, w⟩ := p
    by_cases hk : k = c
    · rw [removeKey, if_pos hk]
      exact ih
    · rw [removeKey, if_neg hk, storeLookup, if_neg hk]
      exact ih

/-- Helper: deleting one key does not affect lookups of other keys. -/
theorem storeLookup_removeKey_ne (s : Store) (c c' : String) (h : c' ≠ c) :
    storeLookup (removeKey s c) c' = storeLookup s c' := by
  induction s with
  | nil => rfl
  | cons p rest ih =>
    obtain ⟨k, w⟩ := p
    by_cases hk : k = c
    · rw [removeKey, if_pos hk, ih, storeLookup, if_neg (fun hh => h (hh.symm.trans hk))]
    · by_cases hk' : k = c'
      · rw [removeKey, if_neg hk, storeLookup, if_pos hk', storeLookup, if_pos hk']
      · rw [removeKey, if_neg hk, storeLookup, if_neg hk', storeLookup, if_neg hk', ih]

/-- Helper: `ensure_chat` makes the chat key found, holding the chat's
previous list (or the empty list when the chat was absent). -/
theorem storeLookup_ensure_chat (s : Store) (chat : String) :
    storeLookup (ensure_chat s chat) chat = some ((storeLookup s chat).getD []) := by
  unfold ensure_chat
  cases h : storeLookup s chat with
  | none => simp [h, storeLookup_append_single_self s chat [] h]
  | some l => simp [h]

/-- Helper: `ensure_chat` does not affect lookups of other keys. -/
theorem storeLookup_ensure_chat_ne (s : Store) (chat c' : String) (h : c' ≠ chat) :
    storeLookup (ensure_chat s chat) c' = storeLookup s c' := by
  unfold ensure_chat
  cases hh : storeLookup s chat with
  | none => simp [storeLookup_append_single_ne s chat c' [] h]
  | some l => simp

/-- Helper: a failed duplicate scan means no stored record of the chat
matches the candidate (coin, address). -/
theorem find_dup_eq_false {l : List WalletRecord} {address coin : String}
    (h : find_dup l address coin = false) :
    ∀ a ∈ l, ¬(a.coin = coin ∧ a.address = address) := by
  intro a ha hand
  have htrue : l.any (fun w => w.address = address && w.coin = coin) = true :=
    List.any_eq_true.mpr ⟨a, ha, by simp [hand.1, hand.2]⟩
  rw [find_dup, htrue] at h
  exact absurd h (by simp)

/-- Helper: every chat list reachable by a lookup in a `StoreUnique` store
is duplicate-free, including the defaulted empty list. -/
theorem recordsUnique_getD (s : Store) (chat : String) (hu : StoreUnique s) :
    RecordsUnique ((storeLookup s chat).getD []) := by
  cases h : storeLookup s chat with
  | none => exact List.Pairwise.nil
  | some l => exact hu chat l h

/-- Helper: the add handler preserves the per-chat (coin, address)
uniqueness invariant. -/
theorem StoreUnique_add (s : Store) (chat coin addr t : String) (hu : StoreUnique s) :
    StoreUnique (wallet_address_entered s chat coin addr t).2 := by
  have hcur : (storeLookup (ensure_chat s chat) chat).getD []
      = (storeLookup s chat).getD [] := by
    rw [storeLookup_ensure_chat]
    rfl
  intro c l hl
  by_cases hd : find_dup ((storeLookup (ensure_chat s chat) chat).getD []) addr coin = true
  · rw [wallet_address_entered] at hl
    simp only [hd, if_true] at hl
    exact hu c l hl
  · rw [wallet_address_entered] at hl
    simp only [Bool.not_eq_true] at hd
    simp only [hd, Bool.false_eq_true, if_false] at hl
    by_cases hc : c = chat
    · subst hc
      rw [storeLookup_setKey_self _ _ _ _ (storeLookup_ensure_chat s c)] at hl
      cases hl
      rw [hcur]
      rw [hcur] at hd
      refine List.pairwise_append.mpr
        ⟨recordsUnique_getD s c hu, List.pairwise_singleton _ _, ?_⟩
      intro a ha b hb
      rw [List.mem_singleton] at hb
      subst hb
      exact find_dup_eq_false hd a ha
    · rw [storeLookup_setKey_ne _ _ _ _ hc, storeLookup_ensure_chat_ne s chat c hc] at hl
      exact hu c l hl

/-- Helper: the delete handler preserves the per-chat (coin, address)
uniqueness invariant (it only erases a record or a whole chat). -/
theorem StoreUnique_remove (s : Store) (chat : String) (idx : Nat) (hu : StoreUnique s) :
    StoreUnique (delete_wallet_confirm s chat idx).2 := by
  intro c l hl
  cases h : storeLookup s chat with
  | none =>
    have hb : delete_wallet_confirm s chat idx = (none, s) := by
      rw [delete_wallet_confirm, h]
    rw [hb] at hl
    exact hu c l hl
  | some l0 =>
    by_cases hi : idx < l0.length
    · have hb : delete_wallet_confirm s chat idx
          = (some (l0.get ⟨idx, hi⟩),
             if (l0.eraseIdx idx).isEmpty = true then removeKey s chat
             else setKey s chat (l0.eraseIdx idx)) := by
        rw [delete_wallet_confirm, h]
        simp only [dif_pos hi]
      rw [hb] at hl
      by_cases he : (l0.eraseIdx idx).isEmpty = true
      · rw [if_pos he] at hl
        by_cases hc : c = chat
        · subst hc
          rw [storeLookup_removeKey_self] at hl
          exact absurd hl (by simp)
        · rw [storeLookup_removeKey_ne _ _ _ hc] at hl
          exact hu c l hl
      · rw [if_neg he] at hl
        by_cases hc : c = chat
        · subst hc
          rw [storeLookup_setKey_self _ _ _ _ h] at hl
          cases hl
          exact List.Pairwise.sublist (List.eraseIdx_sublist l0 idx) (hu c l0 h)
        · rw [storeLookup_setKey_ne _ _ _ _ hc] at hl
          exact hu c l hl
    · have hb : delete_wallet_confirm s chat idx = (none, s) := by
        rw [delete_wallet_confirm, h]
        simp only [dif_neg hi]
      rw [hb] at hl
      exact hu c l hl

/-- Helper: every sequence of add/remove handler mutations starting from
the empty store keeps every chat's list free of (coin, address)
duplicates. -/
theorem StoreUnique_applyOps : ∀ ops : List StoreOp, StoreUnique (applyOps ops) := by
  intro ops
  induction ops with
  | nil =>
    intro c l hl
    exact absurd hl (by simp [applyOps, storeLookup])
  | cons op ops ih =>
    cases op with
    | addOp chat coin addr t => exact StoreUnique_add _ chat coin addr t ih
    | removeOp chat idx => exact StoreUnique_remove _ chat idx ih

/-- C5: adding a wallet appends it to the chat's list unless a record with
the same (coin, address) is already present, in which case the handler
reports "already added" and the persisted store is exactly the original;
lists of other chats are never touched; and after any sequence of add and
remove operations from the empty store, no chat's list contains two records
sharing (coin, address). -/
theorem wallet_add_spec (wallets : Store) (chat coin addr t : String) :
    (find_dup ((storeLookup wallets chat).getD []) addr coin = true →
      wallet_address_entered wallets chat coin addr t = (false, wallets))
    ∧ (find_dup ((storeLookup wallets chat).getD []) addr coin = false →
      (wallet_address_entered wallets chat coin addr t).1 = true
      ∧ storeLookup (wallet_address_entered wallets chat coin addr t).2 chat
          = some ((storeLookup wallets chat).getD [] ++ [⟨coin, addr, t⟩])
      ∧ ∀ c', c' ≠ chat →
          storeLookup (wallet_address_entered wallets chat coin addr t).2 c'
            = storeLookup wallets c')
    ∧ ∀ ops : List StoreOp, StoreUnique (applyOps ops) := by
  have hcur : (storeLookup (ensure_chat wallets chat) chat).getD []
      = (storeLookup wallets chat).getD [] := by
    rw [storeLookup_ensure_chat]
    rfl
  refine ⟨fun hd => ?_, fun hd => ?_, StoreUnique_applyOps⟩
  · rw [wallet_address_entered]
    simp only [hcur, hd, if_true]
  · have hbody : wallet_address_entered wallets chat coin addr t
        = (true, setKey (ensure_chat wallets chat) chat
            ((storeLookup wallets chat).getD [] ++ [⟨coin, addr, t⟩])) := by
      rw [wallet_address_entered]
      simp only [hcur, hd, Bool.false_eq_true, if_false]
    refine ⟨by rw [hbody], ?_, ?_⟩
    · rw [hbody]
      exact storeLookup_setKey_self _ _ _ _ (storeLookup_ensure_chat wallets chat)
    · intro c' hc'
      rw [hbody]
      rw [storeLookup_setKey_ne _ _ _ _ hc', storeLookup_ensure_chat_ne wallets chat c' hc']

/-- Witness for C5: adding the already-present (TON, "A") pair to chat "1"
reports "already added" and leaves the store exactly as it was. -/
theorem wallet_add_spec_witness :
    find_dup ((storeLookup storeW "1").getD []) "A" "TON" = true
    ∧ wallet_address_entered storeW "1" "TON" "A" "t9" = (false, storeW) :=
  ⟨by decide, (wallet_add_spec storeW "1" "TON" "A" "t9").1 (by decide)⟩

/-- C6: deleting the wallet at a valid index removes exactly that record
(the chat's list becomes `take idx ++ drop (idx+1)`, all other records in
their original relative order), removes the chat's entry entirely when the
list becomes empty (length 1), leaves every other chat's list unchanged,
and on an unknown chat or an out-of-range index reports an error and does
not mutate the store at all. -/
theorem wallet_delete_spec (wallets : Store) (chat : String) (idx : Nat) :
    (∀ l, storeLookup wallets chat = some l → ∀ hi : idx < l.length,
      delete_wallet_confirm wallets chat idx
        = (some (l.get ⟨idx, hi⟩),
           if l.length = 1 then removeKey wallets chat
           else setKey wallets chat (l.take idx ++ l.drop (idx + 1)))
      ∧ storeLookup (delete_wallet_confirm wallets chat idx).2 chat
          = (if l.length = 1 then none else some (l.take idx ++ l.drop (idx + 1)))
      ∧ ∀ c', c' ≠ chat →
          storeLookup (delete_wallet_confirm wallets chat idx).2 c'
            = storeLookup wallets c')
    ∧ (storeLookup wallets chat = none →
        delete_wallet_confirm wallets chat idx = (none, wallets))
    ∧ (∀ l, storeLookup wallets chat = some l → l.length ≤ idx →
        delete_wallet_confirm wallets chat idx = (none, wallets)) := by
  refine ⟨?_, fun h => ?_, fun l h hle => ?_⟩
  · intro l h hi
    have hempty : ((l.eraseIdx idx).isEmpty = true) ↔ l.length = 1 := by
      rw [List.isEmpty_iff_length_eq_zero, List.length_eraseIdx]
      simp only [hi, if_true]
      omega
    have hmain : delete_wallet_confirm wallets chat idx
        = (some (l.get ⟨idx, hi⟩),
           if l.length = 1 then removeKey wallets chat
           else setKey wallets chat (l.take idx ++ l.drop (idx + 1))) := by
      rw [delete_wallet_confirm, h]
      simp only [dif_pos hi]
      rw [if_congr hempty rfl rfl, List.eraseIdx_eq_take_drop_succ]
    refine ⟨hmain, ?_, ?_⟩
    · rw [hmain]
      by_cases h1 : l.length = 1
      · simp only [h1, if_true]
        exact storeLookup_removeKey_self wallets chat
      · simp only [h1, if_false]
        exact storeLookup_setKey_self _ _ _ _ h
    · intro c' hc'
      rw [hmain]
      by_cases h1 : l.length = 1
      · simp only [h1, if_true]
        exact storeLookup_removeKey_ne _ _ _ hc'
      · simp only [h1, if_false]
        exact storeLookup_setKey_ne _ _ _ _ hc'
  · rw [delete_wallet_confirm, h]
  · rw [delete_wallet_confirm, h]
    simp only [dif_neg (Nat.not_lt.mpr hle)]

/-- Witness for C6: deleting index 0 of chat "1" in the two-chat store
removes exactly the TON record, keeps the BTC record, and leaves chat "2"
untouched. -/
theorem wallet_delete_spec_witness :
    storeLookup storeW "1" = some [recTonA, recBtcB]
    ∧ (delete_wallet_confirm storeW "1" 0
        = (some (([recTonA, recBtcB] : List WalletRecord).get ⟨0, by decide⟩),
           if ([recTonA, recBtcB] : List WalletRecord).length = 1 then removeKey storeW "1"
           else setKey storeW "1" ([recTonA, recBtcB].take 0 ++ [recTonA, recBtcB].drop 1))
      ∧ storeLookup (delete_wallet_confirm storeW "1" 0).2 "1"
          = (if ([recTonA, recBtcB] : List WalletRecord).length = 1 then none
             else some ([recTonA, recBtcB].take 0 ++ [recTonA, recBtcB].drop 1))
      ∧ ∀ c', c' ≠ "1" →
          storeLookup (delete_wallet_confirm storeW "1" 0).2 c' = storeLookup storeW c') :=
  ⟨by decide, (wallet_delete_spec storeW "1" 0).1 [recTonA, recBtcB] (by decide) (by decide)⟩

/-- Helper: scanning outputs none of which pays the monitored address
leaves the accumulator untouched, for any starting accumulator. -/
theorem btc_scan_outputs_no_match (wallet : String) (outputs : List BtcOut)
    (h : ∀ o ∈ outputs, o.addr ≠ some wallet) :
    btc_scan_outputs wallet outputs = (false, 0) := by
  have hgen : ∀ (l : List BtcOut) (acc : Bool × Nat), (∀ o ∈ l, o.addr ≠ some wallet) →
      List.foldl
        (fun acc o => if o.addr = some wallet then (true, acc.2 + o.value) else acc)
        acc l = acc := by
    intro l
    induction l with
    | nil => intro acc _; rfl
    | cons o rest ih =>
      intro acc hall
      rw [List.foldl_cons, if_neg (hall o (List.mem_cons_self o rest))]
      exact ih acc (fun x hx => hall x (List.mem_cons_of_mem _ hx))
  exact hgen outputs (false, 0) h

/-- C9: `format_eth_transaction` renders the raw value 1500000000000000000
wei divided by 1e18 с 6 decimals — the message contains "1.500000 ETH" —
and `format_usdt_transaction` renders 2500000 divided by 1e6 with 2
decimals — the message contains "2.50 USDT" — for any timestamp renderer,
addresses and monitored wallet (either direction). -/
theorem amount_formatting_examples (fmtTime : Nat → String) (hash : String)
    (ts : Nat) (fromA toA wallet : String) :
    (∃ pre post,
      format_eth_transaction fmtTime ⟨hash, ts, 1500000000000000000, fromA, toA⟩ wallet
        = some (pre ++ ("1.500000 ETH" ++ post)))
    ∧ (∃ pre post,
      format_usdt_transaction fmtTime ⟨hash, ts, 2500000, fromA, toA⟩ wallet
        = some (pre ++ ("2.50 USDT" ++ post))) := by
  constructor
  · simp only [format_eth_transaction]
    by_cases hc : strLower toA = strLower wallet
    · rw [if_pos hc]
      refine ⟨"🔔 <b>ETH - Новая транзакция!</b>\n\n" ++ "📅 " ++ fmtTime ts ++ "\n"
          ++ "📥 <b>Входящий: +",
        "</b>\n" ++ "От: <code>" ++ truncAddr (strLower fromA) ++ "</code>\n", ?_⟩
      refine congrArg some ?_
      simp only [String.append_assoc]
      rw [(by decide : (" ETH</b>\n" : String) = " ETH" ++ "</b>\n")]
      simp only [String.append_assoc]
      rw [← String.append_assoc (formatFixed 1500000000000000000 18 6) " ETH"]
      rfl
    · rw [if_neg hc]
      refine ⟨"🔔 <b>ETH - Новая транзакция!</b>\n\n" ++ "📅 " ++ fmtTime ts ++ "\n"
          ++ "📤 <b>Исходящий: -",
        "</b>\n" ++ "Кому: <code>" ++ truncAddr (strLower toA) ++ "</code>\n", ?_⟩
      refine congrArg some ?_
      simp only [String.append_assoc]
      rw [(by decide : (" ETH</b>\n" : String) = " ETH" ++ "</b>\n")]
      simp only [String.append_assoc]
      rw [← String.append_assoc (formatFixed 1500000000000000000 18 6) " ETH"]
      rfl
  · simp only [format_usdt_transaction]
    by_cases hc : strLower toA = strLower wallet
    · rw [if_pos hc]
      refine ⟨"🔔 <b>USDT - Новая транзакция!</b>\n\n" ++ "📅 " ++ fmtTime ts ++ "\n"
          ++ "📥 <b>Входящий: +",
        "</b>\n" ++ "От: <code>" ++ truncAddr (strLower fromA) ++ "</code>\n", ?_⟩
      refine congrArg some ?_
      simp only [String.append_assoc]
      rw [(by decide : (" USDT</b>\n" : String) = " USDT" ++ "</b>\n")]
      simp only [String.append_assoc]
      rw [← String.append_assoc (formatFixed 2500000 6 2) " USDT"]
      rfl
    · rw [if_neg hc]
      refine ⟨"🔔 <b>USDT - Новая транзакция!</b>\n\n" ++ "📅 " ++ fmtTime ts ++ "\n"
          ++ "📤 <b>Исходящий: -",
        "</b>\n" ++ "Кому: <code>" ++ truncAddr (strLower toA) ++ "</code>\n", ?_⟩
      refine congrArg some ?_
      simp only [String.append_assoc]
      rw [(by decide : (" USDT</b>\n" : String) = " USDT" ++ "</b>\n")]
      simp only [String.append_assoc]
      rw [← String.append_assoc (formatFixed 2500000 6 2) " USDT"]
      rfl

/-- C10: a BTC transaction in which no output's address equals the
monitored wallet address is classified as outgoing with accumulated amount
0, and the formatted message shows "-0.00000000 BTC" regardless of the
transaction's actual transferred value. -/
theorem btc_no_matching_output_formats_zero (fmtTime : Nat → String) (tx : BtcTx)
    (wallet : String) (h : ∀ o ∈ tx.out, o.addr ≠ some wallet) :
    btc_scan_outputs wallet tx.out = (false, 0)
    ∧ ∃ pre post, format_btc_transaction fmtTime tx wallet
        = some (pre ++ ("-0.00000000 BTC" ++ post)) := by
  have hscan := btc_scan_outputs_no_match wallet tx.out h
  refine ⟨hscan, ?_⟩
  simp only [format_btc_transaction, hscan]
  rw [if_neg (by decide : ¬(((false, 0) : Bool × Nat).1 = true))]
  refine ⟨"🔔 <b>BTC - Новая транзакция!</b>\n\n" ++ "📅 " ++ fmtTime tx.time ++ "\n"
      ++ "📤 <b>Исходящий: ",
    "</b>\n" ++ "🔗 <code>" ++ tx.hash.take 16 ++ "...</code>\n", ?_⟩
  refine congrArg some ?_
  simp only [String.append_assoc]
  rw [(by decide : ("📤 <b>Исходящий: -" : String) = "📤 <b>Исходящий: " ++ "-")]
  rw [(by decide : (" BTC</b>\n" : String) = " BTC" ++ "</b>\n")]
  simp only [String.append_assoc]
  rw [← String.append_assoc (formatFixed ((false, 0) : Bool × Nat).2 8 8) " BTC",
    ← String.append_assoc "-" (formatFixed ((false, 0) : Bool × Nat).2 8 8 ++ " BTC")]
  rfl

/-- Witness for C10: a transaction whose single output pays another address
scans to (outgoing, 0) and formats with a "-0.00000000 BTC" amount. -/
theorem btc_no_matching_output_formats_zero_witness :
    (∀ o ∈ ([⟨some "X", 5⟩] : List BtcOut), o.addr ≠ some "W")
    ∧ (btc_scan_outputs "W" ([⟨some "X", 5⟩] : List BtcOut) = (false, 0)
      ∧ ∃ pre post,
          format_btc_transaction (fun _ => "T") ⟨"deadbeef", 0, [⟨some "X", 5⟩]⟩ "W"
            = some (pre ++ ("-0.00000000 BTC" ++ post))) :=
  ⟨by decide,
   btc_no_matching_output_formats_zero (fun _ => "T") ⟨"deadbeef", 0, [⟨some "X", 5⟩]⟩
     "W" (by decide)⟩

end Theorems

end CryptoBot
